import Mathlib

/-!
Verification development for the document ingestion and retrieval engine of
the Conceirge-Bot repository (app/services/document_service.py and the
document routes).  Python strings are modelled as lists of characters,
Python integers as Nat/Int, MongoDB collections as Lean lists, and the
external collaborators (PyPDF2 page extraction, the filesystem, the
sentence-transformer encoder) as oracle functions bundled in an `Env`
record.  Fallible Python code is modelled with `Except`: a value
`Except.error e` stands for a raised exception carrying message `e`.
-/

/-! ## Python string primitives -/

/-- Python whitespace characters, as used by `str.split()` with no
arguments (space, tab, newline, carriage return, vertical tab, form
feed). -/
def pyIsSpace (c : Char) : Bool :=
  c = ' ' || c = '\t' || c = '\n' || c = '\r' || c = Char.ofNat 11 || c = Char.ofNat 12

/-- Helper for `pySplit`: walks the character list keeping the (reversed)
current word in `acc`. -/
def splitAux : List Char → List Char → List (List Char)
  | [], acc => if acc = [] then [] else [acc.reverse]
  | c :: cs, acc =>
    if pyIsSpace c then
      if acc = [] then splitAux cs [] else acc.reverse :: splitAux cs []
    else
      splitAux cs (c :: acc)

/-- Model of Python `text.split()` (no separator argument): splits on runs
of whitespace and never returns empty words. -/
def pySplit (s : List Char) : List (List Char) := splitAux s []

/-- Model of Python `' '.join(words)`. -/
def joinSpace (ws : List (List Char)) : List Char := List.intercalate [' '] ws

/-- Leftmost occurrence of `pat` in `t`, as an index, or `none`.  Used to
model Python `str.find` (which returns the index or `-1`). -/
def strFind (pat : List Char) : List Char → Option Nat
  | [] => if pat.isPrefixOf ([] : List Char) then some 0 else none
  | c :: t =>
    if pat.isPrefixOf (c :: t) then some 0
    else (strFind pat t).map (· + 1)

/-- Model of Python `text.find(pat)`: index of the leftmost occurrence, or
`-1` when `pat` does not occur in `text`. -/
def pyFind (text pat : List Char) : Int :=
  match strFind pat text with
  | some n => (n : Int)
  | none => -1

/-- Model of Python `s.strip()`: removes leading and trailing
whitespace. -/
def pyStrip (s : List Char) : List Char :=
  ((s.dropWhile pyIsSpace).reverse.dropWhile pyIsSpace).reverse

/-! ## Chunker (DocumentService.chunk_text) -/

/-- One entry of the `pages_info` list built by the extractor: page number
and character interval of the page inside the accumulated text. -/
structure PageInfo where
  page_number : Nat
  char_start : Int
  char_end : Int
deriving DecidableEq

/-- One chunk descriptor as produced by `chunk_text`: the dictionary
`{index, content, start_char, end_char, page_number}`. -/
structure ChunkRec where
  index : Nat
  content : List Char
  start_char : Int
  end_char : Int
  page_number : Nat
deriving DecidableEq

/-- The `chunk_size` field set in `DocumentService.__init__`. -/
def chunk_size : Nat := 1000

/-- The `chunk_overlap` field set in `DocumentService.__init__`. -/
def chunk_overlap : Nat := 200

/-- Model of the page-lookup loop of `chunk_text`: the first page whose
interval `[char_start, char_end]` contains the chunk start offset, with
default page number 1. -/
def findPage (pages : List PageInfo) (chunkStart : Int) : Nat :=
  match pages.find? (fun p => chunkStart ≥ p.char_start && chunkStart ≤ p.char_end) with
  | some p => p.page_number
  | none => 1

/-- Model of the chunk-construction statements of `chunk_text`: join the
window with single spaces, locate the joined text in the original text
with `text.find` (possibly `-1`), and record the page number. -/
def closeChunk (text : List Char) (pages : List PageInfo) (idx : Nat) (ws : List (List Char)) : ChunkRec :=
  let content := joinSpace ws
  let start := pyFind text content
  { index := idx
    content := content
    start_char := start
    end_char := start + content.length
    page_number := findPage pages start }

/-- The running total `current_length`: every word contributes its length
plus one (Python adds `len(word) + 1`). -/
def sumLen (ws : List (List Char)) : Nat := (ws.map (fun w => w.length + 1)).sum

/-- Model of the Python overlap slice
`current_chunk[-k:] if len(current_chunk) > k else []` with
`k = overlap // 10`.  Note that for `k = 0` the Python slice `[-0:]`
denotes the whole list. -/
def overlapSlice (k : Nat) (cur : List (List Char)) : List (List Char) :=
  if k < cur.length then (if k = 0 then cur else cur.drop (cur.length - k)) else []

/-- Loop state of `chunk_text`: emitted chunks, current window, running
length and next chunk index. -/
structure ChunkState where
  chunks : List ChunkRec
  cur : List (List Char)
  curLen : Nat
  idx : Nat

/-- One iteration of the word loop of `chunk_text`. -/
def chunkStep (cs ov : Nat) (text : List Char) (pages : List PageInfo) (st : ChunkState) (w : List Char) : ChunkState :=
  if st.curLen + w.length + 1 > cs && !st.cur.isEmpty then
    let seeded := overlapSlice (ov / 10) st.cur ++ [w]
    { chunks := st.chunks ++ [closeChunk text pages st.idx st.cur]
      cur := seeded
      curLen := sumLen seeded
      idx := st.idx + 1 }
  else
    { st with cur := st.cur ++ [w], curLen := st.curLen + w.length + 1 }

/-- The trailing `if current_chunk:` block of `chunk_text`, emitting the
final partial window. -/
def chunkFinalize (text : List Char) (pages : List PageInfo) (st : ChunkState) : List ChunkRec :=
  if st.cur.isEmpty then st.chunks
  else st.chunks ++ [closeChunk text pages st.idx st.cur]

/-- Model of `DocumentService.chunk_text`, parametrised by the instance
fields `chunk_size` and `chunk_overlap` (equal to 1000 and 200 in the
source constructor). -/
def chunk_text (cs ov : Nat) (text : List Char) (pages : List PageInfo) : List ChunkRec :=
  chunkFinalize text pages ((pySplit text).foldl (chunkStep cs ov text pages) ⟨[], [], 0, 0⟩)

/-! ## External collaborators -/

/-- Oracles for the external collaborators of the service.  `readPdf`
models opening a file with `PyPDF2.PdfReader` and iterating its pages:
an outer `Except.error` is a failure to open or parse the file and each
inner `Except.error` is a `page.extract_text()` call that raises.
`readTxt` models `open(path).read()` for text-like files.  `encodeOne`
models the sentence-transformer encoding of one text; the library encode
call on a batch fails as a whole as soon as any item fails.
`pdfAvailable` and `embeddingModel` model the import flag `PDF_AVAILABLE`
and the truthiness of `self.embedding_model`. -/
structure Env where
  pdfAvailable : Bool
  embeddingModel : Bool
  readPdf : String → Except String (List (Except String (List Char)))
  readTxt : String → Except String (List Char)
  encodeOne : List Char → Except String (List ℚ)

/-- All-or-nothing batch encoding: models the single
`self.embedding_model.encode(texts)` library call, which raises for the
whole batch when any single text fails. -/
def encodeBatch (f : List Char → Except String (List ℚ)) : List (List Char) → Except String (List (List ℚ))
  | [] => .ok []
  | t :: ts =>
    match f t with
    | .error e => .error e
    | .ok v =>
      match encodeBatch f ts with
      | .error e => .error e
      | .ok vs => .ok (v :: vs)

/-- Model of `DocumentService.generate_embeddings`: with no model every
text gets an empty vector; otherwise the whole batch is encoded inside a
`try`, and any exception makes the whole result a batch of empty
vectors. -/
def generate_embeddings (env : Env) (texts : List (List Char)) : List (List ℚ) :=
  if !env.embeddingModel then texts.map (fun _ => [])
  else
    match encodeBatch env.encodeOne texts with
    | .ok vs => vs
    | .error _ => texts.map (fun _ => [])

/-! ## Extractor (DocumentService.extract_text_from_pdf) -/

/-- The page loop of `extract_text_from_pdf`: accumulates
`text_content += page_text + "\n"` and the `pages_info` entries; a page
whose extraction raises aborts the whole loop (there is no per-page
handler in the source). -/
def extractPages : List (Except String (List Char)) → Nat → List Char → List PageInfo → Except String (List Char × List PageInfo)
  | [], _, txt, infos => .ok (txt, infos)
  | r :: rest, n, txt, infos =>
    match r with
    | .error e => .error e
    | .ok pt =>
      let txt2 := txt ++ pt ++ ['\n']
      extractPages rest (n + 1) txt2
        (infos ++ [{ page_number := n + 1
                     char_start := (txt2.length : Int) - pt.length - 1
                     char_end := (txt2.length : Int) - 1 }])

/-- Model of `DocumentService.extract_text_from_pdf`.  The outer
`try/except` re-raises any failure (opening the reader or a page
extraction) wrapped in the message
`"Error extracting text from PDF: ..."`. -/
def extract_text_from_pdf (env : Env) (path : String) : Except String (List Char × List PageInfo) :=
  if !env.pdfAvailable then .error "PyPDF2 not available. Please install with: pip install PyPDF2"
  else
    match env.readPdf path with
    | .error e => .error ("Error extracting text from PDF: " ++ e)
    | .ok pages =>
      match extractPages pages 0 [] [] with
      | .error e => .error ("Error extracting text from PDF: " ++ e)
      | .ok r => .ok r

/-! ## Document store (MongoDB collections) -/

/-- The fields of a stored document record that the processing pipeline
reads. -/
structure DocRec where
  id : String
  file_path : String
  original_filename : String
  category : String
  is_active : Bool
deriving DecidableEq

/-- One record of the `document_chunks` collection as inserted by
`process_document`.  An absent embedding is modelled by the empty
list (the code stores the raw list returned by
`generate_embeddings`). -/
structure StoredChunk where
  document_id : String
  chunk_index : Nat
  content : List Char
  embedding : List ℚ
  page_number : Nat
  start_char : Int
  end_char : Int
deriving DecidableEq

/-- The two MongoDB collections touched by the pipeline. -/
structure Store where
  documents : List DocRec
  chunks : List StoredChunk
deriving DecidableEq

/-- Model of `filename.rsplit('.', 1)[1].lower()`: the lowercased suffix
after the last dot, or `none` when the name has no dot (in which case the
Python indexing raises `IndexError`). -/
def fileExtension (name : String) : Option String :=
  let cs := name.toList
  if cs.contains '.' then
    some (String.mk (((cs.reverse.takeWhile (fun c => c ≠ '.')).reverse).map Char.toLower))
  else none

/-! ## Ingestion (DocumentService.process_document) -/

/-- The chunk-persisting tail of `process_document` (lines 224 to 242 of
the source): chunk the text, embed the chunk contents, insert one stored
chunk per produced chunk, and return `True`.  `store1` is the store after
the initial `delete_many`. -/
def storeChunksStep (env : Env) (store1 : Store) (documentId : String) (text : List Char) (pages : List PageInfo) : Except String Bool × Store :=
  let chunks := chunk_text chunk_size chunk_overlap text pages
  let embeddings := generate_embeddings env (chunks.map (fun c => c.content))
  let newChunks := (chunks.zip embeddings).map (fun p =>
    { document_id := documentId
      chunk_index := p.1.index
      content := p.1.content
      embedding := p.2
      page_number := p.1.page_number
      start_char := p.1.start_char
      end_char := p.1.end_char : StoredChunk })
  (.ok true, { documents := store1.documents, chunks := store1.chunks ++ newChunks })

/-- Model of `DocumentService.process_document`.  The pair holds the
outcome (`Except.error` for an uncaught exception, `Except.ok b` for a
boolean return) and the final state of the store: the body has no
`try/except`, so failures of extraction or file reading propagate, and by
then the `delete_many` on the existing chunks has already happened. -/
def process_document (env : Env) (store : Store) (documentId : String) : Except String Bool × Store :=
  match store.documents.find? (fun d => d.id == documentId) with
  | none => (.ok false, store)
  | some doc =>
    let store1 : Store :=
      { documents := store.documents
        chunks := store.chunks.filter (fun c => !(c.document_id == documentId)) }
    match fileExtension doc.original_filename with
    | none => (.error "IndexError: list index out of range", store1)
    | some ext =>
      if ext = "pdf" then
        match extract_text_from_pdf env doc.file_path with
        | .error e => (.error e, store1)
        | .ok (text, pages) => storeChunksStep env store1 documentId text pages
      else if ext = "txt" ∨ ext = "doc" ∨ ext = "docx" then
        match env.readTxt doc.file_path with
        | .error e => (.error e, store1)
        | .ok text =>
          storeChunksStep env store1 documentId text
            [{ page_number := 1, char_start := 0, char_end := (text.length : Int) }]
      else (.ok false, store1)

/-! ## Retrieval scoring (DocumentService.search_documents / query_documents) -/

/-- Dot product of two embedding vectors, truncating at the shorter one
(the pairing `np.dot` performs when shapes agree; a shape mismatch is
handled separately in `similarity_score`). -/
def dotp (a b : List ℚ) : ℚ := ((a.zip b).map (fun p => p.1 * p.2)).sum

/-- Squared Euclidean norm of a vector, so that the squared value of the
float expression `np.linalg.norm(a) * np.linalg.norm(b)` is exactly
`normSq a * normSq b`. -/
def normSq (a : List ℚ) : ℚ := dotp a a

/-- Model of the per-candidate score of `search_documents` (and of the
same formula in `query_documents`):
`np.dot(a, b) / (np.linalg.norm(a) * np.linalg.norm(b))` inside a
`try/except` that turns an exception into the score `0`.
The real score `s = d / (sqrt A * sqrt B)` is irrational in general, so we
represent it by its sign-preserving square `s * |s| = d * |d| / (A * B)`,
an exact rational; `s` lies in `[-1, 1]` exactly when the representation
does.  A shape mismatch makes `np.dot` raise, and the handler appends the
score `0`.  When both shapes agree and the norm product is zero the float
division yields NaN (no exception is raised and there is no zero-norm
guard in the source); NaN is modelled as `none`. -/
def similarity_score (a b : List ℚ) : Option ℚ :=
  if a.length ≠ b.length then some 0
  else if normSq a * normSq b = 0 then none
  else some (dotp a b * |dotp a b| / (normSq a * normSq b))

/-- Modelled from the claim wording (not the source): cosine similarity
with the score defined as `0` whenever either norm is zero, in the same
sign-preserving-square representation as `similarity_score`. -/
def similarity_score_claim (a b : List ℚ) : Option ℚ :=
  if normSq a = 0 ∨ normSq b = 0 then some 0
  else some (dotp a b * |dotp a b| / (normSq a * normSq b))

/-- One search result dictionary of `search_documents`. -/
structure SearchResult where
  chunk : StoredChunk
  document : DocRec
  similarity_score_val : Option ℚ
  content : List Char
deriving DecidableEq

/-- Insert into a descending-by-score list, after any element with a
greater-or-equal score (a stable descending sort step; NaN ordering is
approximated, no claim depends on it). -/
def insertDesc (x : SearchResult × Option ℚ) : List (SearchResult × Option ℚ) → List (SearchResult × Option ℚ)
  | [] => [x]
  | y :: ys =>
    match x.2, y.2 with
    | some a, some b => if a ≤ b then y :: insertDesc x ys else x :: y :: ys
    | _, _ => y :: insertDesc x ys

/-- Stable descending sort by score, modelling
`similarities.sort(key=..., reverse=True)`. -/
def sortByScoreDesc (l : List (SearchResult × Option ℚ)) : List (SearchResult × Option ℚ) :=
  l.foldl (fun acc x => insertDesc x acc) []

/-- The lexical fallback of `search_documents`: substring containment of
the query in the chunk content, a fixed default score of `1/2` for every
match, insertion order, truncated to `limit`. -/
def lexicalFallback (base : List (StoredChunk × DocRec)) (query : List Char) (limit : Nat) : List SearchResult :=
  ((base.filter (fun p => !(strFind query p.1.content).isNone)).take limit).map
    (fun p => { chunk := p.1, document := p.2, similarity_score_val := some (1/2), content := p.1.content })

/-- Model of `DocumentService.search_documents`: empty-after-strip queries
short-circuit to `[]`; otherwise the chunk/document join is filtered by
category and `is_active`, and either the semantic branch (query embedding
present and non-empty, at least one candidate with a non-empty stored
embedding) scores, sorts descending and truncates, or the lexical
fallback runs. -/
def search_documents (env : Env) (store : Store) (query : List Char) (category : Option String) (limit : Nat) : List SearchResult :=
  if pyStrip query = [] then []
  else
    let queryEmbedding : Option (List ℚ) :=
      if env.embeddingModel then
        match env.encodeOne query with
        | .ok v => some v
        | .error _ => none
      else none
    let base : List (StoredChunk × DocRec) := store.chunks.filterMap (fun c =>
      match store.documents.find? (fun d => d.id == c.document_id) with
      | some d =>
        if (match category with
            | some cat => d.category == cat
            | none => true) && d.is_active then some (c, d) else none
      | none => none)
    match queryEmbedding with
    | some qe =>
      if !qe.isEmpty then
        let withEmb := base.filter (fun p => !p.1.embedding.isEmpty)
        if !withEmb.isEmpty then
          let scored := withEmb.map (fun p =>
            ({ chunk := p.1, document := p.2
               similarity_score_val := similarity_score qe p.1.embedding
               content := p.1.content : SearchResult }, similarity_score qe p.1.embedding))
          ((sortByScoreDesc scored).take limit).map (fun p => p.1)
        else lexicalFallback base query limit
      else lexicalFallback base query limit
    | none => lexicalFallback base query limit

/-! ## Claim-level descriptions used for refinement comparisons -/

/-- Modelled from the claim wording of the chunking algorithm, seed rule
taken literally: when a window closes, the next window is seeded with the
trailing `overlap / 10` tokens of the closed window (all of it when it is
shorter).  Windows are token lists; the emitted chunk contents are the
windows joined with single spaces. -/
def windowsClaimAux (cs k : Nat) : List (List Char) → List (List Char) → Nat → List (List (List Char))
  | [], cur, _ => if cur.isEmpty then [] else [cur]
  | w :: ws, cur, curLen =>
    if curLen + w.length + 1 > cs && !cur.isEmpty then
      let seeded := cur.drop (cur.length - k) ++ [w]
      cur :: windowsClaimAux cs k ws seeded (sumLen seeded)
    else windowsClaimAux cs k ws (cur ++ [w]) (curLen + w.length + 1)

/-- The window sequence the claim describes, over the whitespace tokens of
the text. -/
def windowsClaim (cs ov : Nat) (text : List Char) : List (List (List Char)) :=
  windowsClaimAux cs (ov / 10) (pySplit text) [] 0

/-- The amended window description: identical to the claim except for the
seed rule, which follows the source: the seed is the trailing
`overlap / 10` tokens only when the closed window holds strictly more
than `overlap / 10` tokens, and is empty otherwise (for
`overlap / 10 = 0` the Python slice `[-0:]` makes the seed the whole
closed window). -/
def windowsAmendedAux (cs k : Nat) : List (List Char) → List (List Char) → Nat → List (List (List Char))
  | [], cur, _ => if cur.isEmpty then [] else [cur]
  | w :: ws, cur, curLen =>
    if curLen + w.length + 1 > cs && !cur.isEmpty then
      let seeded := overlapSlice k cur ++ [w]
      cur :: windowsAmendedAux cs k ws seeded (sumLen seeded)
    else windowsAmendedAux cs k ws (cur ++ [w]) (curLen + w.length + 1)

/-- The amended window sequence over the whitespace tokens of the text. -/
def windowsAmended (cs ov : Nat) (text : List Char) : List (List (List Char)) :=
  windowsAmendedAux cs (ov / 10) (pySplit text) [] 0

/-- Modelled from the claim wording for the embedder: each text is encoded
independently and a failing text contributes an empty vector at its own
position only. -/
def generate_embeddings_claim (env : Env) (texts : List (List Char)) : List (List ℚ) :=
  if !env.embeddingModel then texts.map (fun _ => [])
  else texts.map (fun t =>
    match env.encodeOne t with
    | .ok v => v
    | .error _ => [])

/-- Pure assembly of page texts into the accumulated content and page
map, used by the claim-level extractor description. -/
def assemblePages : List (List Char) → Nat → List Char → List PageInfo → List Char × List PageInfo
  | [], _, txt, infos => (txt, infos)
  | pt :: rest, n, txt, infos =>
    let txt2 := txt ++ pt ++ ['\n']
    assemblePages rest (n + 1) txt2
      (infos ++ [{ page_number := n + 1
                   char_start := (txt2.length : Int) - pt.length - 1
                   char_end := (txt2.length : Int) - 1 }])

/-- Modelled from the claim wording for the extractor: an unreadable page
is skipped, contributing empty text, and the extraction fails only when
the file cannot be opened or parsed at all or when every page yields
empty text. -/
def extract_text_from_pdf_claim (env : Env) (path : String) : Except String (List Char × List PageInfo) :=
  if !env.pdfAvailable then .error "PyPDF2 not available. Please install with: pip install PyPDF2"
  else
    match env.readPdf path with
    | .error e => .error ("Error extracting text from PDF: " ++ e)
    | .ok pages =>
      let texts := pages.map (fun r =>
        match r with
        | .ok t => t
        | .error _ => [])
      if texts.all (fun t => t.isEmpty) then .error "every page yields empty text"
      else .ok (assemblePages texts 0 [] [])

/-! ## Concrete fixtures used by counterexamples and witnesses -/

/-- Environment whose PDF reader fails to open the file. -/
def envPdfOpenErr : Env :=
  { pdfAvailable := true
    embeddingModel := false
    readPdf := fun _ => .error "boom"
    readTxt := fun _ => .error "no file"
    encodeOne := fun _ => .error "no model" }

/-- Environment whose PDF has one readable page and one page whose
extraction raises. -/
def envPdfBadPage : Env :=
  { pdfAvailable := true
    embeddingModel := false
    readPdf := fun _ => .ok [.ok ("hello".toList), .error "boom"]
    readTxt := fun _ => .error "no file"
    encodeOne := fun _ => .error "no model" }

/-- Environment whose PDF opens and has two pages that both extract to
empty text. -/
def envPdfEmptyPages : Env :=
  { pdfAvailable := true
    embeddingModel := false
    readPdf := fun _ => .ok [.ok [], .ok []]
    readTxt := fun _ => .error "no file"
    encodeOne := fun _ => .error "no model" }

/-- Environment with no embedding model whose text reader returns
`"hello world"`. -/
def envTxtOk : Env :=
  { pdfAvailable := false
    embeddingModel := false
    readPdf := fun _ => .error "no pdf"
    readTxt := fun _ => .ok ("hello world".toList)
    encodeOne := fun _ => .error "no model" }

/-- Environment with an embedding model that fails on the text `"bad"`
and embeds every other text as the vector `[1]`. -/
def envEncBad : Env :=
  { pdfAvailable := false
    embeddingModel := true
    readPdf := fun _ => .error "no pdf"
    readTxt := fun _ => .error "no file"
    encodeOne := fun t => if t = ("bad".toList) then .error "fail" else .ok [1] }

/-- A stored pdf document with one pre-existing chunk. -/
def storePdfOne : Store :=
  { documents := [{ id := "d1", file_path := "p", original_filename := "a.pdf", category := "policy", is_active := true }]
    chunks := [{ document_id := "d1", chunk_index := 0, content := "old".toList, embedding := [], page_number := 1, start_char := 0, end_char := 3 }] }

/-- A stored txt document with one stale chunk of its own and one chunk
of another document. -/
def storeTxtTwo : Store :=
  { documents := [{ id := "d1", file_path := "p", original_filename := "a.txt", category := "policy", is_active := true }]
    chunks := [{ document_id := "d1", chunk_index := 5, content := "old".toList, embedding := [], page_number := 1, start_char := 0, end_char := 3 },
               { document_id := "d2", chunk_index := 0, content := "keep".toList, embedding := [], page_number := 1, start_char := 0, end_char := 4 }] }

/-- The store expected after reprocessing `"d1"` in `storeTxtTwo` under
`envTxtOk`. -/
def storeTxtTwoAfter : Store :=
  { documents := storeTxtTwo.documents
    chunks := [{ document_id := "d2", chunk_index := 0, content := "keep".toList, embedding := [], page_number := 1, start_char := 0, end_char := 4 },
               { document_id := "d1", chunk_index := 0, content := "hello world".toList, embedding := [], page_number := 1, start_char := 0, end_char := 11 }] }

/-! ## Helper lemmas -/

lemma encodeBatch_ok_length (f : List Char → Except String (List ℚ)) :
    ∀ (ts : List (List Char)) (vs : List (List ℚ)), encodeBatch f ts = .ok vs → vs.length = ts.length := by
  intro ts
  induction ts with
  | nil =>
    intro vs h
    simp only [encodeBatch] at h
    cases h
    rfl
  | cons t ts ih =>
    intro vs h
    simp only [encodeBatch] at h
    cases hf : f t with
    | error e => rw [hf] at h; cases h
    | ok v =>
      rw [hf] at h
      cases hb : encodeBatch f ts with
      | error e => rw [hb] at h; cases h
      | ok vs2 =>
        rw [hb] at h
        cases h
        simp [ih vs2 hb]

lemma generate_embeddings_length (env : Env) (texts : List (List Char)) :
    (generate_embeddings env texts).length = texts.length := by
  unfold generate_embeddings
  split
  · simp
  · cases hb : encodeBatch env.encodeOne texts with
    | error e => simp
    | ok vs => simpa using encodeBatch_ok_length env.encodeOne texts vs hb

lemma strFind_le (pat : List Char) :
    ∀ (t : List Char) (n : Nat), strFind pat t = some n → n + pat.length ≤ t.length := by
  intro t
  induction t with
  | nil =>
    intro n h
    simp only [strFind] at h
    split at h
    · rename_i hpre
      cases h
      have : pat = [] := List.prefix_nil.mp (List.isPrefixOf_iff_prefix.mp hpre)
      simp [this]
    · cases h
  | cons c t ih =>
    intro n h
    simp only [strFind] at h
    split at h
    · rename_i hpre
      cases h
      simpa using (List.isPrefixOf_iff_prefix.mp hpre).length_le
    · cases hm : strFind pat t with
      | none => rw [hm] at h; cases h
      | some m =>
        rw [hm] at h
        cases h
        have := ih m hm
        simp only [List.length_cons]
        omega

lemma dotp_nil_left (b : List ℚ) : dotp [] b = 0 := rfl

lemma dotp_nil_right (a : List ℚ) : dotp a [] = 0 := by
  simp [dotp]

lemma dotp_cons (x y : ℚ) (a b : List ℚ) : dotp (x :: a) (y :: b) = x * y + dotp a b := by
  simp [dotp]

lemma normSq_nonneg (a : List ℚ) : 0 ≤ normSq a := by
  induction a with
  | nil => simp [normSq, dotp]
  | cons x a ih =>
    have h := dotp_cons x x a a
    unfold normSq at *
    rw [h]
    nlinarith [sq_nonneg x]

lemma dotp_sq_le (a : List ℚ) : ∀ (b : List ℚ), dotp a b ^ 2 ≤ normSq a * normSq b := by
  induction a with
  | nil =>
    intro b
    simp [dotp_nil_left, normSq]
  | cons x a ih =>
    intro b
    cases b with
    | nil =>
      simp [dotp_nil_right, normSq, dotp]
    | cons y b =>
      have hA := normSq_nonneg a
      have hB := normSq_nonneg b
      have hab := ih b
      have h1 : dotp (x :: a) (y :: b) = x * y + dotp a b := dotp_cons x y a b
      have h2 : normSq (x :: a) = x * x + normSq a := dotp_cons x x a a
      have h3 : normSq (y :: b) = y * y + normSq b := dotp_cons y y b b
      rw [h1, h2, h3]
      rcases eq_or_lt_of_le hB with hB0 | hBpos
      · have hd : dotp a b = 0 := by nlinarith [sq_nonneg (dotp a b)]
        rw [hd, ← hB0]
        nlinarith [mul_nonneg hA (sq_nonneg y)]
      · nlinarith [sq_nonneg (x * normSq b - y * dotp a b),
                   mul_nonneg (le_of_lt hBpos) (sub_nonneg.mpr hab),
                   mul_nonneg (sq_nonneg y) (sub_nonneg.mpr hab)]

lemma extractPages_error (rs : List (Except String (List Char))) :
    ∀ (n : Nat) (txt : List Char) (infos : List PageInfo),
      (∃ e, Except.error e ∈ rs) → ∃ e2, extractPages rs n txt infos = .error e2 := by
  induction rs with
  | nil =>
    intro n txt infos h
    obtain ⟨e, he⟩ := h
    simp at he
  | cons r rs ih =>
    intro n txt infos h
    cases r with
    | error e => exact ⟨e, rfl⟩
    | ok pt =>
      obtain ⟨e, he⟩ := h
      rcases List.mem_cons.mp he with h1 | h1
      · cases h1
      · exact ih _ _ _ ⟨e, h1⟩

lemma extractPages_ok (rs : List (Except String (List Char))) :
    ∀ (n : Nat) (txt : List Char) (infos : List PageInfo),
      (∀ r ∈ rs, ∃ t, r = .ok t) → ∃ res, extractPages rs n txt infos = .ok res := by
  induction rs with
  | nil => intro n txt infos _; exact ⟨_, rfl⟩
  | cons r rs ih =>
    intro n txt infos h
    obtain ⟨t, ht⟩ := h r (List.mem_cons_self r rs)
    subst ht
    exact ih _ _ _ (fun r2 hr2 => h r2 (List.mem_cons_of_mem _ hr2))

lemma closeChunk_content (text : List Char) (pages : List PageInfo) (idx : Nat) (ws : List (List Char)) :
    (closeChunk text pages idx ws).content = joinSpace ws := rfl

lemma closeChunk_index (text : List Char) (pages : List PageInfo) (idx : Nat) (ws : List (List Char)) :
    (closeChunk text pages idx ws).index = idx := rfl

lemma closeChunk_bounds (text : List Char) (pages : List PageInfo) (idx : Nat) (ws : List (List Char)) :
    (0 ≤ (closeChunk text pages idx ws).start_char ∧
      (closeChunk text pages idx ws).start_char ≤ (closeChunk text pages idx ws).end_char ∧
      (closeChunk text pages idx ws).end_char ≤ (text.length : Int)) ∨
    ((closeChunk text pages idx ws).start_char = -1 ∧
      (closeChunk text pages idx ws).end_char = -1 + ((closeChunk text pages idx ws).content.length : Int)) := by
  simp only [closeChunk, pyFind]
  cases hf : strFind (joinSpace ws) text with
  | none => right; simp
  | some n =>
    left
    have hle := strFind_le (joinSpace ws) text n hf
    refine ⟨by positivity, by simp, ?_⟩
    simp only
    have : (n : Int) + (joinSpace ws).length ≤ (text.length : Int) := by exact_mod_cast hle
    omega

lemma foldl_chunkStep_indices (cs ov : Nat) (text : List Char) (pages : List PageInfo) :
    ∀ (ws : List (List Char)) (st : ChunkState),
      st.chunks.map (fun c => c.index) = List.range st.idx →
      ((ws.foldl (chunkStep cs ov text pages) st).chunks.map (fun c => c.index) =
        List.range (ws.foldl (chunkStep cs ov text pages) st).idx) := by
  intro ws
  induction ws with
  | nil => intro st h; simpa using h
  | cons w ws ih =>
    intro st h
    simp only [List.foldl_cons]
    apply ih
    unfold chunkStep
    split
    · simp [List.map_append, h, List.range_succ, closeChunk_index]
    · simpa using h

lemma chunk_text_len_idx (cs ov : Nat) (text : List Char) (pages : List PageInfo) :
    (chunk_text cs ov text pages).map (fun c => c.index) =
      List.range (chunk_text cs ov text pages).length := by
  have hinv := foldl_chunkStep_indices cs ov text pages (pySplit text) ⟨[], [], 0, 0⟩ (by simp)
  set st := (pySplit text).foldl (chunkStep cs ov text pages) ⟨[], [], 0, 0⟩ with hst
  have hlen : st.chunks.length = st.idx := by
    have := congrArg List.length hinv
    simpa using this
  unfold chunk_text chunkFinalize
  rw [← hst]
  split
  · rw [hinv, hlen]
  · simp only [List.map_append, List.length_append]
    rw [hinv, hlen]
    simp [List.range_succ, closeChunk_index]

lemma foldl_chunkStep_mem (cs ov : Nat) (text : List Char) (pages : List PageInfo) :
    ∀ (ws : List (List Char)) (st : ChunkState) (c : ChunkRec),
      (∀ c2 ∈ st.chunks, ∃ i ws2, c2 = closeChunk text pages i ws2) →
      c ∈ (ws.foldl (chunkStep cs ov text pages) st).chunks →
      ∃ i ws2, c = closeChunk text pages i ws2 := by
  intro ws
  induction ws with
  | nil => intro st c hinv hc; exact hinv c hc
  | cons w ws ih =>
    intro st c hinv hc
    simp only [List.foldl_cons] at hc
    refine ih _ c ?_ hc
    unfold chunkStep
    split
    · intro c2 hc2
      rcases List.mem_append.mp hc2 with h1 | h1
      · exact hinv c2 h1
      · rcases List.mem_singleton.mp h1 with rfl
        exact ⟨st.idx, st.cur, rfl⟩
    · exact hinv

lemma chunk_text_mem (cs ov : Nat) (text : List Char) (pages : List PageInfo) (c : ChunkRec)
    (hc : c ∈ chunk_text cs ov text pages) : ∃ i ws2, c = closeChunk text pages i ws2 := by
  unfold chunk_text chunkFinalize at hc
  split at hc
  · exact foldl_chunkStep_mem cs ov text pages (pySplit text) _ c (by simp) hc
  · rcases List.mem_append.mp hc with h1 | h1
    · exact foldl_chunkStep_mem cs ov text pages (pySplit text) _ c (by simp) h1
    · rcases List.mem_singleton.mp h1 with rfl
      exact ⟨_, _, rfl⟩

lemma foldl_chunkStep_contents (cs ov : Nat) (text : List Char) (pages : List PageInfo) :
    ∀ (ws : List (List Char)) (st : ChunkState),
      (chunkFinalize text pages (ws.foldl (chunkStep cs ov text pages) st)).map (fun c => c.content) =
        st.chunks.map (fun c => c.content) ++
          (windowsAmendedAux cs (ov / 10) ws st.cur st.curLen).map joinSpace := by
  intro ws
  induction ws with
  | nil =>
    intro st
    simp only [List.foldl_nil]
    unfold chunkFinalize windowsAmendedAux
    cases hcur : st.cur.isEmpty with
    | true => simp
    | false => simp [closeChunk_content]
  | cons w ws ih =>
    intro st
    simp only [List.foldl_cons]
    cases hcond : (decide (st.curLen + w.length + 1 > cs) && !st.cur.isEmpty) with
    | true =>
      have hstep : chunkStep cs ov text pages st w =
          { chunks := st.chunks ++ [closeChunk text pages st.idx st.cur]
            cur := overlapSlice (ov / 10) st.cur ++ [w]
            curLen := sumLen (overlapSlice (ov / 10) st.cur ++ [w])
            idx := st.idx + 1 } := by
        unfold chunkStep
        rw [hcond]
        rfl
      have hwin : windowsAmendedAux cs (ov / 10) (w :: ws) st.cur st.curLen =
          st.cur :: windowsAmendedAux cs (ov / 10) ws (overlapSlice (ov / 10) st.cur ++ [w])
            (sumLen (overlapSlice (ov / 10) st.cur ++ [w])) := by
        simp only [windowsAmendedAux]
        rw [hcond]
        simp
      rw [hstep, ih, hwin]
      simp [closeChunk_content]
    | false =>
      have hstep : chunkStep cs ov text pages st w =
          { chunks := st.chunks, cur := st.cur ++ [w], curLen := st.curLen + w.length + 1, idx := st.idx } := by
        unfold chunkStep
        rw [hcond]
        rfl
      have hwin : windowsAmendedAux cs (ov / 10) (w :: ws) st.cur st.curLen =
          windowsAmendedAux cs (ov / 10) ws (st.cur ++ [w]) (st.curLen + w.length + 1) := by
        simp only [windowsAmendedAux]
        rw [hcond]
        simp
      rw [hstep, ih, hwin]

lemma storeChunksStep_ok (env : Env) (store1 : Store) (documentId : String)
    (text : List Char) (pages : List PageInfo) (store2 : Store)
    (hclean : ∀ c ∈ store1.chunks, (c.document_id == documentId) = false)
    (h : storeChunksStep env store1 documentId text pages = (.ok true, store2)) :
    store2.chunks = store1.chunks ++ store2.chunks.filter (fun c => c.document_id == documentId) ∧
    (store2.chunks.filter (fun c => c.document_id == documentId)).map (fun c => c.chunk_index) =
      List.range (store2.chunks.filter (fun c => c.document_id == documentId)).length := by
  unfold storeChunksStep at h
  obtain ⟨-, hstore⟩ := (Prod.mk.injEq _ _ _ _).mp h
  subst hstore
  dsimp only
  set chunks := chunk_text chunk_size chunk_overlap text pages with hchunks
  set embeddings := generate_embeddings env (chunks.map (fun c => c.content)) with hemb
  set newChunks := (chunks.zip embeddings).map (fun p =>
    { document_id := documentId
      chunk_index := p.1.index
      content := p.1.content
      embedding := p.2
      page_number := p.1.page_number
      start_char := p.1.start_char
      end_char := p.1.end_char : StoredChunk }) with hnew
  have hlen : embeddings.length = chunks.length := by
    rw [hemb, generate_embeddings_length, List.length_map]
  have hmemnew : ∀ c ∈ newChunks, (c.document_id == documentId) = true := by
    intro c hc
    rw [hnew] at hc
    obtain ⟨p, _, rfl⟩ := List.mem_map.mp hc
    simp
  have hfilter : (store1.chunks ++ newChunks).filter (fun c => c.document_id == documentId) = newChunks := by
    simp only [List.filter_append]
    rw [List.filter_eq_nil_iff.mpr (fun c hc => by simp [hclean c hc]),
        List.filter_eq_self.mpr hmemnew]
    simp
  rw [hfilter]
  refine ⟨rfl, ?_⟩
  have hmap : newChunks.map (fun c => c.chunk_index) = chunks.map (fun c => c.index) := by
    rw [hnew, List.map_map]
    have hcomp : ((fun c => c.chunk_index) ∘ (fun (p : ChunkRec × List ℚ) =>
        { document_id := documentId
          chunk_index := p.1.index
          content := p.1.content
          embedding := p.2
          page_number := p.1.page_number
          start_char := p.1.start_char
          end_char := p.1.end_char : StoredChunk })) = (fun (p : ChunkRec × List ℚ) => p.1.index) := rfl
    rw [hcomp]
    have hfst : (chunks.zip embeddings).map Prod.fst = chunks :=
      List.map_fst_zip chunks embeddings (by omega)
    calc (chunks.zip embeddings).map (fun p => p.1.index)
        = ((chunks.zip embeddings).map Prod.fst).map (fun c => c.index) := by
          rw [List.map_map]; rfl
      _ = chunks.map (fun c => c.index) := by rw [hfst]
  have hlennew : newChunks.length = chunks.length := by
    rw [hnew, List.length_map, List.length_zip]
    omega
  rw [hmap, hlennew, hchunks]
  exact chunk_text_len_idx chunk_size chunk_overlap text pages

/-! ## Claim theorems -/

/-- Claim C3: chunking is deterministic: two runs of `chunk_text` over
identical full text and page map (with the same chunk size and overlap)
produce identical chunk records, hence identical boundaries, identical
count and identical indices. -/
theorem chunk_text_deterministic (cs ov : Nat) (t1 t2 : List Char) (p1 p2 : List PageInfo)
    (ht : t1 = t2) (hp : p1 = p2) :
    chunk_text cs ov t1 p1 = chunk_text cs ov t2 p2 ∧
    (chunk_text cs ov t1 p1).length = (chunk_text cs ov t2 p2).length ∧
    (chunk_text cs ov t1 p1).map (fun c => c.index) = (chunk_text cs ov t2 p2).map (fun c => c.index) := by
  subst ht
  subst hp
  exact ⟨rfl, rfl, rfl⟩

/-- Witness for claim C3 at a concrete input. -/
theorem chunk_text_deterministic_witness :
    ("hello world".toList = "hello world".toList ∧ ([] : List PageInfo) = []) ∧
    chunk_text 1000 200 ("hello world".toList) [] = chunk_text 1000 200 ("hello world".toList) [] :=
  ⟨⟨rfl, rfl⟩, (chunk_text_deterministic 1000 200 ("hello world".toList) ("hello world".toList) [] [] rfl rfl).1⟩

/-- Claim C9: a query that strips to the empty string makes
`search_documents` return the empty list for every store, category filter
and limit, before either retrieval mode is consulted. -/
theorem search_documents_empty_query (env : Env) (store : Store) (query : List Char)
    (category : Option String) (limit : Nat) (h : pyStrip query = []) :
    search_documents env store query category limit = [] := by
  unfold search_documents
  rw [if_pos h]

/-- Witness for claim C9: a whitespace-only query against a non-empty
store returns no results. -/
theorem search_documents_empty_query_witness :
    pyStrip ("   ".toList) = [] ∧
    search_documents envEncBad storeTxtTwo ("   ".toList) none 5 = [] :=
  ⟨by decide, search_documents_empty_query envEncBad storeTxtTwo ("   ".toList) none 5 (by decide)⟩

/-- Claim C10: processing a document id that is not in the document store
returns `False` and leaves the store untouched: no chunk is deleted or
inserted and no document record changes. -/
theorem process_document_missing_document (env : Env) (store : Store) (documentId : String)
    (h : store.documents.find? (fun d => d.id == documentId) = none) :
    process_document env store documentId = (.ok false, store) := by
  unfold process_document
  rw [h]

/-- Witness for claim C10 at a concrete store without the requested id. -/
theorem process_document_missing_document_witness :
    storeTxtTwo.documents.find? (fun d => d.id == "nope") = none ∧
    process_document envTxtOk storeTxtTwo "nope" = (.ok false, storeTxtTwo) :=
  ⟨by decide, process_document_missing_document envTxtOk storeTxtTwo "nope" (by decide)⟩

/-- Counterexample to claim C1: `process_document` does not return a
boolean for every document id: with a stored pdf document whose file
fails to open, the extraction exception propagates across the
`process_document` boundary (there is no `try/except` in its body). -/
theorem process_document_propagates_exception :
    (process_document envPdfOpenErr storePdfOne "d1").1 =
      Except.error "Error extracting text from PDF: boom" := rfl

/-- Claim C1 as amended: `process_document` returns a boolean only on the
no-document and unsupported-extension paths; a pdf extraction failure
propagates as an exception to the caller, and by that time the existing
chunks of the document have already been deleted while the document
records themselves are never modified. -/
theorem process_document_error_propagation (env : Env) (store : Store) (documentId : String)
    (doc : DocRec) (e : String)
    (hfind : store.documents.find? (fun d => d.id == documentId) = some doc)
    (hext : fileExtension doc.original_filename = some "pdf")
    (herr : extract_text_from_pdf env doc.file_path = .error e) :
    process_document env store documentId =
      (.error e,
        { documents := store.documents
          chunks := store.chunks.filter (fun c => !(c.document_id == documentId)) }) := by
  unfold process_document
  simp only [hfind]
  simp only [hext]
  rw [if_pos trivial]
  simp only [herr]

/-- Witness for the amended claim C1 at a concrete failing pdf. -/
theorem process_document_error_propagation_witness :
    (storePdfOne.documents.find? (fun d => d.id == "d1") =
        some { id := "d1", file_path := "p", original_filename := "a.pdf", category := "policy", is_active := true } ∧
      fileExtension "a.pdf" = some "pdf" ∧
      extract_text_from_pdf envPdfOpenErr "p" = .error "Error extracting text from PDF: boom") ∧
    process_document envPdfOpenErr storePdfOne "d1" =
      (.error "Error extracting text from PDF: boom",
        { documents := storePdfOne.documents
          chunks := storePdfOne.chunks.filter (fun c => !(c.document_id == "d1")) }) :=
  ⟨⟨by decide, by decide, rfl⟩,
    process_document_error_propagation envPdfOpenErr storePdfOne "d1"
      { id := "d1", file_path := "p", original_filename := "a.pdf", category := "policy", is_active := true }
      "Error extracting text from PDF: boom" (by decide) (by decide) rfl⟩

/-- Claim C2: after any run of `process_document` that returns `True`,
the stored chunk set is the previous chunks of other documents followed
by exactly the newly produced chunks of this document (the old ones were
deleted first, never merged), and the chunk indices of this document are
exactly the contiguous range `0..N-1`. -/
theorem process_document_replaces_chunks (env : Env) (store : Store) (documentId : String)
    (store2 : Store) (h : process_document env store documentId = (.ok true, store2)) :
    store2.chunks = store.chunks.filter (fun c => !(c.document_id == documentId)) ++
      store2.chunks.filter (fun c => c.document_id == documentId) ∧
    (store2.chunks.filter (fun c => c.document_id == documentId)).map (fun c => c.chunk_index) =
      List.range (store2.chunks.filter (fun c => c.document_id == documentId)).length := by
  unfold process_document at h
  cases hfind : store.documents.find? (fun d => d.id == documentId) with
  | none =>
    rw [hfind] at h
    cases h
  | some doc =>
    rw [hfind] at h
    dsimp only at h
    have hclean : ∀ c ∈ store.chunks.filter (fun c => !(c.document_id == documentId)),
        (c.document_id == documentId) = false := by
      intro c hc
      have := (List.mem_filter.mp hc).2
      simpa using this
    cases hext : fileExtension doc.original_filename with
    | none =>
      rw [hext] at h
      cases h
    | some ext =>
      rw [hext] at h
      dsimp only at h
      by_cases hpdf : ext = "pdf"
      · rw [if_pos hpdf] at h
        cases hex : extract_text_from_pdf env doc.file_path with
        | error e => rw [hex] at h; cases h
        | ok r =>
          rw [hex] at h
          exact storeChunksStep_ok env _ documentId r.1 r.2 store2 hclean h
      · rw [if_neg hpdf] at h
        by_cases htxt : ext = "txt" ∨ ext = "doc" ∨ ext = "docx"
        · rw [if_pos htxt] at h
          cases hrd : env.readTxt doc.file_path with
          | error e => rw [hrd] at h; cases h
          | ok text =>
            rw [hrd] at h
            exact storeChunksStep_ok env _ documentId text _ store2 hclean h
        · rw [if_neg htxt] at h
          cases h

/-- Witness for claim C2: reprocessing the txt document `"d1"` replaces
its stale chunk, keeps the chunk of `"d2"`, and numbers the new chunks
from 0. -/
theorem process_document_replaces_chunks_witness :
    process_document envTxtOk storeTxtTwo "d1" = (.ok true, storeTxtTwoAfter) ∧
    (storeTxtTwoAfter.chunks = storeTxtTwo.chunks.filter (fun c => !(c.document_id == "d1")) ++
        storeTxtTwoAfter.chunks.filter (fun c => c.document_id == "d1") ∧
      (storeTxtTwoAfter.chunks.filter (fun c => c.document_id == "d1")).map (fun c => c.chunk_index) =
        List.range (storeTxtTwoAfter.chunks.filter (fun c => c.document_id == "d1")).length) :=
  ⟨rfl, process_document_replaces_chunks envTxtOk storeTxtTwo "d1" storeTxtTwoAfter rfl⟩

/-- Counterexample to claim C4: on the text `"a  b"` (two spaces) the only
chunk joins the tokens as `"a b"`, which does not occur in the text, so
Python `find` yields `-1` and the chunk has `start_char = -1 < 0`. -/
theorem chunk_text_negative_start_char :
    ¬ (∀ c ∈ chunk_text 1000 200 ("a  b".toList) [],
        0 ≤ c.start_char ∧ c.start_char ≤ c.end_char ∧ c.end_char ≤ (("a  b".toList).length : Int)) := by
  decide

/-- Claim C4 as amended: for every chunk, either its content occurs in
the text and then `0 ≤ start_char ≤ end_char ≤ length of text`, or the
joined content does not occur in the text (Python `find` fails) and then
`start_char = -1` and `end_char = content length - 1`. -/
theorem chunk_text_char_bounds (cs ov : Nat) (text : List Char) (pages : List PageInfo)
    (c : ChunkRec) (hc : c ∈ chunk_text cs ov text pages) :
    (0 ≤ c.start_char ∧ c.start_char ≤ c.end_char ∧ c.end_char ≤ (text.length : Int)) ∨
    (c.start_char = -1 ∧ c.end_char = -1 + (c.content.length : Int)) := by
  obtain ⟨i, ws2, rfl⟩ := chunk_text_mem cs ov text pages c hc
  exact closeChunk_bounds text pages i ws2

/-- Witness for the amended claim C4 at a concrete chunk. -/
theorem chunk_text_char_bounds_witness :
    ({ index := 0, content := "hi".toList, start_char := 0, end_char := 2, page_number := 1 : ChunkRec}
        ∈ chunk_text 1000 200 ("hi".toList) []) ∧
    ((0 ≤ (0 : Int) ∧ (0 : Int) ≤ 2 ∧ (2 : Int) ≤ (("hi".toList).length : Int)) ∨
      ((0 : Int) = -1 ∧ (2 : Int) = -1 + (("hi".toList).length : Int))) :=
  ⟨by decide, chunk_text_char_bounds 1000 200 ("hi".toList) []
    { index := 0, content := "hi".toList, start_char := 0, end_char := 2, page_number := 1 } (by decide)⟩

/-- Counterexample to claim C5: with `chunk_size = 7` and `overlap = 20`
(`overlap / 10 = 2` seed tokens) on `"aa bb cc"`, the window `[aa, bb]`
closes holding exactly 2 tokens; the claim seeds the next window with its
trailing 2 tokens, producing a final chunk `"aa bb cc"`, but the source
guard `len(current_chunk) > overlap // 10` fails at equality, so the code
seeds nothing and the final chunk is `"cc"`. -/
theorem chunk_text_overlap_seed_counterexample :
    (chunk_text 7 20 ("aa bb cc".toList) []).map (fun c => c.content) =
        ["aa bb".toList, "cc".toList] ∧
    (windowsClaim 7 20 ("aa bb cc".toList)).map joinSpace =
        ["aa bb".toList, "aa bb cc".toList] ∧
    (chunk_text 7 20 ("aa bb cc".toList) []).map (fun c => c.content) ≠
      (windowsClaim 7 20 ("aa bb cc".toList)).map joinSpace := by
  refine ⟨by decide, by decide, by decide⟩

/-- Claim C5 as amended: `chunk_text` tokenizes on whitespace and
accumulates tokens into a window; when adding the next token would push
the running length (token lengths plus one each) past `chunk_size` it
closes the window, joined with single spaces and never splitting a token,
as the next chunk; the following window is seeded with the trailing
`overlap / 10` tokens of the closed window only when the closed window
holds strictly more than `overlap / 10` tokens (and with the entire
closed window when `overlap / 10 = 0`), and is otherwise seeded empty;
the final partial window is always emitted and empty input yields zero
chunks.  The emitted contents equal the windows of this description and
the indices are consecutive from 0. -/
theorem chunk_text_window_algorithm (cs ov : Nat) (text : List Char) (pages : List PageInfo) :
    (chunk_text cs ov text pages).map (fun c => c.content) = (windowsAmended cs ov text).map joinSpace ∧
    (chunk_text cs ov text pages).map (fun c => c.index) = List.range (chunk_text cs ov text pages).length ∧
    chunk_text cs ov ([] : List Char) pages = [] := by
  refine ⟨?_, chunk_text_len_idx cs ov text pages, rfl⟩
  have h := foldl_chunkStep_contents cs ov text pages (pySplit text) ⟨[], [], 0, 0⟩
  simpa [chunk_text, windowsAmended] using h

/-- Counterexample to claim C6: the scoring of `search_documents` has no
zero-norm guard: against the zero embedding `[0]` the float division is
`0/0` (NaN, modelled `none`), not the score `0` that the claim
prescribes. -/
theorem similarity_score_no_zero_norm_guard :
    similarity_score [(1 : ℚ)] [0] = none ∧
    similarity_score_claim [(1 : ℚ)] [0] = some 0 ∧
    similarity_score [(1 : ℚ)] [0] ≠ similarity_score_claim [(1 : ℚ)] [0] := by
  have h1 : similarity_score [(1 : ℚ)] [0] = none := by
    norm_num [similarity_score, normSq, dotp]
  have h2 : similarity_score_claim [(1 : ℚ)] [0] = some 0 := by
    norm_num [similarity_score_claim, normSq, dotp]
  refine ⟨h1, h2, ?_⟩
  rw [h1, h2]
  simp

/-- Claim C6 as amended: every defined candidate score is the cosine
similarity of the two vectors (in the exact sign-preserving-square
representation) or the exception-path score `0`, and lies in `[-1, 1]`;
a candidate with a zero-norm vector instead receives an undefined (NaN)
score, because the code divides without any zero-norm guard. -/
theorem similarity_score_bounds (a b : List ℚ) (s : ℚ)
    (h : similarity_score a b = some s) : -1 ≤ s ∧ s ≤ 1 := by
  unfold similarity_score at h
  split_ifs at h with h1 h2
  · cases h
    norm_num
  · have hA := normSq_nonneg a
    have hB := normSq_nonneg b
    have hABnn : 0 ≤ normSq a * normSq b := mul_nonneg hA hB
    have hpos : 0 < normSq a * normSq b := lt_of_le_of_ne hABnn (Ne.symm h2)
    have hd2 : dotp a b ^ 2 ≤ normSq a * normSq b := dotp_sq_le a b
    have habs1 : dotp a b * |dotp a b| ≤ normSq a * normSq b := by
      calc dotp a b * |dotp a b| ≤ |dotp a b| * |dotp a b| :=
            mul_le_mul_of_nonneg_right (le_abs_self _) (abs_nonneg _)
        _ = dotp a b ^ 2 := by rw [abs_mul_abs_self, ← pow_two]
        _ ≤ normSq a * normSq b := hd2
    have habs2 : -(normSq a * normSq b) ≤ dotp a b * |dotp a b| := by
      have hneg : -(|dotp a b| * |dotp a b|) ≤ dotp a b * |dotp a b| :=
        neg_le_of_neg_le (by nlinarith [neg_abs_le (dotp a b), abs_nonneg (dotp a b)])
      have heq : |dotp a b| * |dotp a b| = dotp a b ^ 2 := by rw [abs_mul_abs_self, ← pow_two]
      nlinarith
    cases h
    constructor
    · rw [le_div_iff₀ hpos]
      linarith
    · rw [div_le_one hpos]
      exact habs1

/-- Witness for the amended claim C6: identical unit vectors score
exactly 1, inside `[-1, 1]`. -/
theorem similarity_score_bounds_witness :
    similarity_score [(1 : ℚ)] [1] = some 1 ∧ (-1 ≤ (1 : ℚ) ∧ (1 : ℚ) ≤ 1) :=
  ⟨by norm_num [similarity_score, normSq, dotp],
    similarity_score_bounds [(1 : ℚ)] [1] 1 (by norm_num [similarity_score, normSq, dotp])⟩

/-- Counterexample to claim C7: under an encoder that fails only on the
text `"bad"`, `generate_embeddings` returns empty vectors at EVERY
position, emptying the whole batch, while the claim prescribes an empty
vector at the failing position only. -/
theorem generate_embeddings_empties_whole_batch :
    generate_embeddings envEncBad ["good".toList, "bad".toList] = [[], []] ∧
    generate_embeddings_claim envEncBad ["good".toList, "bad".toList] = [[(1 : ℚ)], []] ∧
    generate_embeddings envEncBad ["good".toList, "bad".toList] ≠
      generate_embeddings_claim envEncBad ["good".toList, "bad".toList] := by
  have h1 : generate_embeddings envEncBad ["good".toList, "bad".toList] = [[], []] := by
    simp [generate_embeddings, encodeBatch, envEncBad]
  have h2 : generate_embeddings_claim envEncBad ["good".toList, "bad".toList] = [[(1 : ℚ)], []] := by
    simp [generate_embeddings_claim, envEncBad]
  refine ⟨h1, h2, ?_⟩
  rw [h1, h2]
  simp

/-- Claim C7 as amended: `generate_embeddings` always returns a batch of
the same length and in the same order, and either the whole batch is the
successfully encoded one, or the ENTIRE batch consists of empty sentinel
vectors (when the model is absent or when the batch encode raises for
any reason, including a single failing text). -/
theorem generate_embeddings_length_and_batch (env : Env) (texts : List (List Char)) :
    (generate_embeddings env texts).length = texts.length ∧
    (generate_embeddings env texts = texts.map (fun _ => ([] : List ℚ)) ∨
      (env.embeddingModel = true ∧
        encodeBatch env.encodeOne texts = .ok (generate_embeddings env texts))) := by
  refine ⟨generate_embeddings_length env texts, ?_⟩
  cases hm : env.embeddingModel with
  | false => left; simp [generate_embeddings, hm]
  | true =>
    cases hb : encodeBatch env.encodeOne texts with
    | error e => left; simp [generate_embeddings, hm, hb]
    | ok vs =>
      right
      refine ⟨rfl, ?_⟩
      simp [generate_embeddings, hm, hb]

/-- Counterexample to claim C8: a PDF with one readable page and one page
whose extraction raises aborts the whole document in the source (the
claim instead skips the page), and a PDF whose pages all extract to empty
text succeeds in the source (the claim instead demands an
ExtractionError). -/
theorem extract_text_from_pdf_counterexample :
    extract_text_from_pdf envPdfBadPage "f" = .error "Error extracting text from PDF: boom" ∧
    extract_text_from_pdf_claim envPdfBadPage "f" =
      .ok ("hello\n\n".toList, [⟨1, 0, 5⟩, ⟨2, 6, 6⟩]) ∧
    extract_text_from_pdf envPdfEmptyPages "f" =
      .ok ("\n\n".toList, [⟨1, 0, 0⟩, ⟨2, 1, 1⟩]) ∧
    extract_text_from_pdf_claim envPdfEmptyPages "f" = .error "every page yields empty text" :=
  ⟨rfl, rfl, rfl, rfl⟩

/-- Claim C8 as amended: when the PDF opens, any page whose extraction
raises aborts the extraction of the whole document with an error, and the
extraction succeeds whenever every page extracts, even when every page is
empty. -/
theorem extract_text_from_pdf_error_behavior (env : Env) (path : String)
    (pages : List (Except String (List Char)))
    (hp : env.pdfAvailable = true) (hr : env.readPdf path = .ok pages) :
    ((∃ e, Except.error e ∈ pages) → ∃ msg, extract_text_from_pdf env path = .error msg) ∧
    ((∀ r ∈ pages, ∃ t, r = .ok t) → ∃ res, extract_text_from_pdf env path = .ok res) := by
  unfold extract_text_from_pdf
  simp only [hp, hr, Bool.not_true, Bool.false_eq_true, if_false]
  constructor
  · intro he
    obtain ⟨e2, he2⟩ := extractPages_error pages 0 [] [] he
    rw [he2]
    exact ⟨_, rfl⟩
  · intro hok
    obtain ⟨res, hres⟩ := extractPages_ok pages 0 [] [] hok
    rw [hres]
    exact ⟨_, rfl⟩

/-- Witness for the amended claim C8: the concrete bad-page PDF makes the
whole extraction fail. -/
theorem extract_text_from_pdf_error_behavior_witness :
    ∃ msg, extract_text_from_pdf envPdfBadPage "f" = .error msg :=
  (extract_text_from_pdf_error_behavior envPdfBadPage "f"
    [.ok ("hello".toList), .error "boom"] rfl rfl).1 ⟨"boom", by simp⟩
